import Mathlib

/-!
Verification of the Java grading engine (`executeJavaCode` / `runCommand`
in `server/javaExecutor.ts`) of the code-classroom repository.

The engine is embedded shallowly:
* `runCommand` is a promise racing a child process against a timer on a
  single-threaded event loop; it is embedded as a state machine `stepEvent`
  folded over the (arbitrary) sequence of events the event loop delivers.
* `executeJavaCode` is a pure function of an environment `JavaEnv` that
  records what each subprocess invocation would return (the compile step and
  the run of each test case), mirroring the TypeScript control flow exactly.
* Filesystem effects are embedded as the trace of write/unlink operations
  the code performs (`gradeFsTrace`), applied to an abstract file set.
-/

namespace JavaExecutor

/-- A test case, as in the `TestCase` interface: stdin text and expected stdout. -/
structure TestCase where
  input : String
  expectedOutput : String
deriving DecidableEq, Repr

/-- Per-case record, as in the `TestCaseResult` interface. -/
structure TestCaseResult where
  input : String
  expectedOutput : String
  actualOutput : String
  passed : Bool
deriving DecidableEq, Repr

/-- Terminal status of a grading run (`'passed' | 'failed' | 'error'`). -/
inductive Status where
  | passed
  | failed
  | error
deriving DecidableEq, Repr

/-- The `ExecutionResult` returned by `executeJavaCode` (the Verdict). -/
structure ExecutionResult where
  status : Status
  output : Option String
  error : Option String
  executionTime : Option Nat
  testCaseResults : Option (List TestCaseResult)
deriving DecidableEq, Repr

/-- The value a `runCommand` promise resolves with:
`{ stdout, stderr, exitCode }`. -/
structure CommandResult where
  stdout : String
  stderr : String
  exitCode : Int
deriving DecidableEq, Repr

/-! ## The bounded process runner `runCommand`

The Node event loop delivers events to the handlers registered in
`runCommand`; each handler is guarded by the `isResolved` flag.  We model the
run as a fold of `stepEvent` over an arbitrary event sequence. -/

/-- An event delivered to `runCommand`'s handlers by the event loop. -/
inductive ChildEvent where
  | outData (s : String)
  | errData (s : String)
  | closed (code : Option Int)
  | spawnFailed (msg : String)
  | timerFired
deriving DecidableEq, Repr

/-- Whether an event's handler calls `resolve` (when not already resolved). -/
def resolves : ChildEvent → Bool
  | ChildEvent.closed _ => true
  | ChildEvent.spawnFailed _ => true
  | ChildEvent.timerFired => true
  | _ => false

/-- The mutable state closed over by `runCommand`'s handlers. -/
structure RunState where
  stdout : String
  stderr : String
  isResolved : Bool
  resolved : Option CommandResult
  resolveCount : Nat
  killed : Bool
deriving DecidableEq, Repr

/-- Initial state: empty streams, not resolved, process not killed. -/
def initState : RunState :=
  { stdout := "", stderr := "", isResolved := false, resolved := none,
    resolveCount := 0, killed := false }

/-- The result resolved when the timer fires first
(`exitCode: 1`, `stderr: 'Timeout: Code execution took too long'`). -/
def timeoutResult : CommandResult :=
  { stdout := "", stderr := "Timeout: Code execution took too long", exitCode := 1 }

/-- One handler invocation, exactly as written in `runCommand`:
data handlers append unconditionally; `close`, `error` and the timer callback
are guarded by `isResolved`; `close` reports `code || 0`; the timer kills the
process and resolves with `timeoutResult`. -/
def stepEvent (st : RunState) : ChildEvent → RunState
  | ChildEvent.outData s => { st with stdout := st.stdout ++ s }
  | ChildEvent.errData s => { st with stderr := st.stderr ++ s }
  | ChildEvent.closed code =>
      if st.isResolved then st
      else { st with isResolved := true,
                     resolved := some { stdout := st.stdout, stderr := st.stderr,
                                        exitCode := code.getD 0 },
                     resolveCount := st.resolveCount + 1 }
  | ChildEvent.spawnFailed msg =>
      if st.isResolved then st
      else { st with isResolved := true,
                     resolved := some { stdout := "", stderr := msg, exitCode := 1 },
                     resolveCount := st.resolveCount + 1 }
  | ChildEvent.timerFired =>
      if st.isResolved then st
      else { st with isResolved := true, killed := true,
                     resolved := some timeoutResult,
                     resolveCount := st.resolveCount + 1 }

/-- A whole `runCommand` invocation: the handlers run one at a time over the
event sequence the loop delivers. -/
def runCommand (events : List ChildEvent) : RunState :=
  events.foldl stepEvent initState

/-! ## Output comparison -/

/-- Remove the maximal run of `'\n'` characters at the end of a character
list (the effect of `replace(/\n+$/, '')` on the underlying characters). -/
def dropTrailingNewlines (l : List Char) : List Char :=
  (l.reverse.dropWhile (fun c => c == '\n')).reverse

/-- `stdout.replace(/\n+$/, '')`: strip only trailing newline characters. -/
def stripTrailingNewlines (s : String) : String :=
  String.mk (dropTrailingNewlines s.data)

/-- The pass decision for one test case (given exit code 0):
`actualOutput === expectedOutput` after trailing-newline stripping of both. -/
def testPassed (stdout expectedOutput : String) : Bool :=
  stripTrailingNewlines stdout == stripTrailingNewlines expectedOutput

/-- The runtime-error diagnostic:
`Runtime Error in Test Case ${i + 1}: ${executeResult.stderr}`. -/
def runtimeErrMsg (k : Nat) (stderr : String) : String :=
  "Runtime Error in Test Case " ++ toString k ++ ": " ++ stderr

/-- First index (0-based) at which two equal-length line lists differ,
with the two differing lines; mirrors the `for` scan in the mismatch branch. -/
def firstDiffLine : List String → List String → Nat → Option (Nat × String × String)
  | e :: es, a :: bs, j =>
      if e ≠ a then some (j, e, a) else firstDiffLine es bs (j + 1)
  | _, _, _ => none

/-- The mismatch diagnostic composed when a case's output differs, built from
the stripped expected and actual outputs exactly as in the source. -/
def mismatchMsg (k : Nat) (expectedOutput actualOutput : String) : String :=
  if (expectedOutput.splitOn "\n").length ≠ (actualOutput.splitOn "\n").length then
    "Test Case " ++ toString k ++ " Failed - Different number of lines. Expected "
      ++ toString (expectedOutput.splitOn "\n").length ++ " lines, got "
      ++ toString (actualOutput.splitOn "\n").length ++ " lines."
  else
    match firstDiffLine (expectedOutput.splitOn "\n") (actualOutput.splitOn "\n") 0 with
    | some (j, e, a) =>
        "Test Case " ++ toString k ++ " Failed - Line " ++ toString (j + 1)
          ++ " differs.\nExpected: \"" ++ e ++ "\"\nActual: \"" ++ a ++ "\""
    | none =>
        "Test Case " ++ toString k ++ " Failed - Outputs differ in whitespace or formatting."

/-! ## The test-case loop of `executeJavaCode` -/

/-- Environment of one grading run: what the compiler invocation resolves
with, what the `java` invocation for test index `i` resolves with, and the
measured wall-clock time. -/
structure JavaEnv where
  compile : CommandResult
  run : Nat → CommandResult
  elapsed : Nat

/-- The loop accumulator state at exit: the `allTestsPassed`, `output` and
`error` variables, the pushed `testCaseResults`, and how many times the
runtime subprocess was invoked. -/
structure LoopOut where
  allTestsPassed : Bool
  output : String
  error : String
  testCaseResults : List TestCaseResult
  invoked : Nat
deriving DecidableEq, Repr

/-- The `for` loop over test cases in `executeJavaCode`, starting at index
`i`: run the program; a non-zero exit records a failing result and breaks
with a runtime-error diagnostic; otherwise compare outputs, record the
result, and either continue (appending the `Test Case n: Passed` line) or
break with a mismatch diagnostic. -/
def runTests (run : Nat → CommandResult) : Nat → List TestCase → LoopOut
  | _, [] => { allTestsPassed := true, output := "", error := "",
               testCaseResults := [], invoked := 0 }
  | i, tc :: rest =>
    if (run i).exitCode ≠ 0 then
      { allTestsPassed := false, output := "",
        error := runtimeErrMsg (i + 1) (run i).stderr,
        testCaseResults := [{ input := tc.input, expectedOutput := tc.expectedOutput,
                              actualOutput := "Runtime Error: " ++ (run i).stderr,
                              passed := false }],
        invoked := 1 }
    else if testPassed (run i).stdout tc.expectedOutput then
      let L := runTests run (i + 1) rest
      { allTestsPassed := L.allTestsPassed,
        output := ("Test Case " ++ toString (i + 1) ++ ": Passed\n") ++ L.output,
        error := L.error,
        testCaseResults :=
          { input := tc.input, expectedOutput := tc.expectedOutput,
            actualOutput := (run i).stdout,
            passed := testPassed (run i).stdout tc.expectedOutput } :: L.testCaseResults,
        invoked := L.invoked + 1 }
    else
      { allTestsPassed := false, output := "",
        error := mismatchMsg (i + 1) (stripTrailingNewlines tc.expectedOutput)
                   (stripTrailingNewlines (run i).stdout),
        testCaseResults := [{ input := tc.input, expectedOutput := tc.expectedOutput,
                              actualOutput := (run i).stdout,
                              passed := testPassed (run i).stdout tc.expectedOutput }],
        invoked := 1 }

/-- `executeJavaCode`: compile (non-zero exit returns the
`Compilation Error` verdict immediately), then run the loop and build the
final verdict from the accumulator, exactly as in the source's `return`. -/
def executeJavaCode (env : JavaEnv) (testCases : List TestCase) : ExecutionResult :=
  if env.compile.exitCode ≠ 0 then
    { status := Status.error, output := none,
      error := some ("Compilation Error: " ++ env.compile.stderr),
      executionTime := none, testCaseResults := none }
  else
    let L := runTests env.run 0 testCases
    { status := if L.allTestsPassed then Status.passed else Status.failed,
      output := some (if L.allTestsPassed
                      then "All " ++ toString testCases.length ++ " test cases passed!"
                      else L.output),
      error := if L.allTestsPassed then none else some L.error,
      executionTime := some env.elapsed,
      testCaseResults := some L.testCaseResults }

/-- The verdict built by the `catch` clause for an unexpected exception with
message `msg`: `Execution Error: ${message}`. -/
def executionErrorVerdict (msg : String) : ExecutionResult :=
  { status := Status.error, output := none,
    error := some ("Execution Error: " ++ msg),
    executionTime := none, testCaseResults := none }

/-- How many times the runtime subprocess (`java`) is invoked by a grading
run: zero when compilation fails, else the loop's invocation count. -/
def runnerInvocations (env : JavaEnv) (testCases : List TestCase) : Nat :=
  if env.compile.exitCode ≠ 0 then 0 else (runTests env.run 0 testCases).invoked

/-- Exit code 0 and matching output: the condition under which the loop
continues past a test case. -/
def casePasses (run : Nat → CommandResult) (i : Nat) (tc : TestCase) : Bool :=
  (run i).exitCode == 0 && testPassed (run i).stdout tc.expectedOutput

/-! ## Filesystem effects of a grading run

A grading run touches the scratch directory through `fs` calls.  We record
the sequence of write/unlink operations a run performs on file names and
apply it to an abstract set of file names. -/

/-- A filesystem operation on the scratch directory (`mkdir` is omitted:
it touches no file name). -/
inductive FsOp where
  | write (name : String)
  | unlink (name : String)
deriving DecidableEq, Repr

/-- Apply one operation to the set (as a list) of existing file names;
`unlink` is best-effort, so removing an absent name is a no-op. -/
def applyOp (fs : List String) : FsOp → List String
  | FsOp.write n => n :: fs
  | FsOp.unlink n => fs.filter (fun m => m ≠ n)

/-- Apply a whole operation trace. -/
def applyOps (fs : List String) (ops : List FsOp) : List String :=
  ops.foldl applyOp fs

/-- `Solution_${suffix}.java`, the generated source file. -/
def javaFileName (suffix : String) : String := "Solution_" ++ suffix ++ ".java"

/-- `Solution_${suffix}.class`, the compiled artifact. -/
def classFileName (suffix : String) : String := "Solution_" ++ suffix ++ ".class"

/-- `input_${i}.txt`, the per-case input file. -/
def inputFileName (i : Nat) : String := "input_" ++ toString i ++ ".txt"

/-- The `finally` block: unlink the source file and the class file,
swallowing errors, on every exit path. -/
def cleanupOps (suffix : String) : List FsOp :=
  [FsOp.unlink (javaFileName suffix), FsOp.unlink (classFileName suffix)]

/-- File operations of the test-case loop: each iteration writes
`input_${i}.txt`; on a runtime error or a mismatch the loop breaks without
unlinking it; after a pass it is unlinked and the loop continues. -/
def loopFsOps (run : Nat → CommandResult) : Nat → List TestCase → List FsOp
  | _, [] => []
  | i, tc :: rest =>
    FsOp.write (inputFileName i) ::
      (if (run i).exitCode ≠ 0 then []
       else if testPassed (run i).stdout tc.expectedOutput then
         FsOp.unlink (inputFileName i) :: loopFsOps run (i + 1) rest
       else [])

/-- The full operation trace of a grading run with token `suffix`: write
the source file; on compile success `javac` creates the class file and the
loop runs; the `finally` cleanup is appended on every path. -/
def gradeFsTrace (env : JavaEnv) (testCases : List TestCase) (suffix : String) : List FsOp :=
  (FsOp.write (javaFileName suffix) ::
    (if env.compile.exitCode ≠ 0 then []
     else FsOp.write (classFileName suffix) :: loopFsOps env.run 0 testCases))
  ++ cleanupOps suffix

/-! ## Helper lemmas: strings and trailing-newline stripping -/

lemma ne_empty_of_length_pos {s : String} (h : 0 < s.length) : s ≠ "" := by
  intro he
  rw [he] at h
  simp at h

lemma append_ne_empty_left (a b : String) (h : a ≠ "") : a ++ b ≠ "" := by
  apply ne_empty_of_length_pos
  rw [String.length_append]
  have ha : 0 < a.length := by
    by_contra hc
    exact h (by
      apply String.ext
      have : a.length = 0 := by omega
      exact List.length_eq_zero.mp this)
  omega

lemma dropWhile_replicate_newline (l : List Char) (m : Nat) :
    List.dropWhile (fun c => c == '\n') (List.replicate m '\n' ++ l)
      = List.dropWhile (fun c => c == '\n') l := by
  induction m with
  | zero => simp
  | succ n ih => rw [List.replicate_succ, List.cons_append, List.dropWhile_cons]; simp [ih]

lemma dropTrailingNewlines_append_replicate (u : List Char) (m : Nat) :
    dropTrailingNewlines (u ++ List.replicate m '\n') = dropTrailingNewlines u := by
  unfold dropTrailingNewlines
  rw [List.reverse_append, List.reverse_replicate, dropWhile_replicate_newline]

lemma dropWhile_append_cons_of_neg {α : Type} (p : α → Bool) (c : α) (h : p c = false)
    (l1 l2 : List α) :
    List.dropWhile p (l1 ++ c :: l2) = List.dropWhile p l1 ++ c :: l2 := by
  induction l1 with
  | nil => simp [List.dropWhile_cons, h]
  | cons a l ih =>
    by_cases ha : p a
    · simp only [List.cons_append, List.dropWhile_cons, ha, if_true, ih]
    · simp only [List.cons_append, List.dropWhile_cons, ha, if_false, Bool.false_eq_true]

lemma dropTrailingNewlines_insert_length (p q : List Char) (c : Char)
    (hc : (c == '\n') = false) :
    (dropTrailingNewlines (p ++ c :: q)).length
      = p.length + 1 + (q.reverse.dropWhile (fun x => x == '\n')).length := by
  unfold dropTrailingNewlines
  have hrev : (p ++ c :: q).reverse = q.reverse ++ c :: p.reverse := by
    rw [List.reverse_append, List.reverse_cons, List.append_assoc, List.singleton_append]
  rw [hrev, dropWhile_append_cons_of_neg _ c hc]
  simp [List.length_append]
  try omega

lemma dropTrailingNewlines_noinsert_length (p q : List Char) :
    (dropTrailingNewlines (p ++ q)).length
      ≤ p.length + (q.reverse.dropWhile (fun x => x == '\n')).length
    ∧ ((q.reverse.dropWhile (fun x => x == '\n')).isEmpty = false →
       (dropTrailingNewlines (p ++ q)).length
         = p.length + (q.reverse.dropWhile (fun x => x == '\n')).length) := by
  unfold dropTrailingNewlines
  rw [List.reverse_append, List.dropWhile_append]
  by_cases hq : (q.reverse.dropWhile (fun x => x == '\n')).isEmpty
  · rw [if_pos hq]
    have h0 : (q.reverse.dropWhile (fun x => x == '\n')).length = 0 := by
      rw [List.isEmpty_iff] at hq
      simp [hq]
    constructor
    · have hle : (List.dropWhile (fun x => x == '\n') p.reverse).length ≤ p.reverse.length :=
        (List.dropWhile_sublist _).length_le
      simp only [List.length_reverse] at hle ⊢
      omega
    · intro hcon
      rw [hq] at hcon
      simp at hcon
  · rw [if_neg hq]
    simp [List.length_append]
    try omega

lemma testPassed_insert_false (p q : List Char) (c : Char) (h : ¬ c = '\n') :
    testPassed (String.mk (p ++ c :: q)) (String.mk (p ++ q)) = false := by
  have hc : (c == '\n') = false := by simpa using h
  unfold testPassed stripTrailingNewlines
  rw [beq_eq_false_iff_ne]
  intro he
  have hlen := congrArg (fun s => s.data.length) he
  simp only [] at hlen
  rw [dropTrailingNewlines_insert_length p q c hc] at hlen
  rcases dropTrailingNewlines_noinsert_length p q with ⟨hle, heq⟩
  by_cases hq : (q.reverse.dropWhile (fun x => x == '\n')).isEmpty
  · have h0 : (q.reverse.dropWhile (fun x => x == '\n')).length = 0 := by
      rw [List.isEmpty_iff] at hq
      simp [hq]
    omega
  · have := heq (by simpa using hq)
    omega

lemma testPassed_trailing_newlines (u : List Char) (m n : Nat) :
    testPassed (String.mk (u ++ List.replicate m '\n'))
      (String.mk (u ++ List.replicate n '\n')) = true := by
  unfold testPassed stripTrailingNewlines
  rw [beq_iff_eq]
  simp only [dropTrailingNewlines_append_replicate]

lemma runtimeErrMsg_ne_empty (k : Nat) (s : String) : runtimeErrMsg k s ≠ "" := by
  unfold runtimeErrMsg
  exact append_ne_empty_left _ _ (append_ne_empty_left _ _ (append_ne_empty_left _ _ (by decide)))

lemma mismatchMsg_ne_empty (k : Nat) (e a : String) : mismatchMsg k e a ≠ "" := by
  have h10 : (0 : Nat) < "Test Case ".length := by decide
  unfold mismatchMsg
  split
  · apply ne_empty_of_length_pos
    simp only [String.length_append]
    omega
  · split
    · apply ne_empty_of_length_pos
      simp only [String.length_append]
      omega
    · apply ne_empty_of_length_pos
      simp only [String.length_append]
      omega

/-! ## Helper lemmas: the `runCommand` event machine -/

lemma stepEvent_of_resolved (st : RunState) (e : ChildEvent) (h : st.isResolved = true) :
    (stepEvent st e).isResolved = true ∧ (stepEvent st e).resolved = st.resolved
      ∧ (stepEvent st e).resolveCount = st.resolveCount
      ∧ (stepEvent st e).killed = st.killed := by
  cases e <;> simp [stepEvent, h]

lemma foldl_stepEvent_of_resolved (evs : List ChildEvent) (st : RunState)
    (h : st.isResolved = true) :
    (evs.foldl stepEvent st).isResolved = true
      ∧ (evs.foldl stepEvent st).resolved = st.resolved
      ∧ (evs.foldl stepEvent st).resolveCount = st.resolveCount
      ∧ (evs.foldl stepEvent st).killed = st.killed := by
  induction evs generalizing st with
  | nil => exact ⟨h, rfl, rfl, rfl⟩
  | cons e evs ih =>
    obtain ⟨h1, h2, h3, h4⟩ := stepEvent_of_resolved st e h
    obtain ⟨g1, g2, g3, g4⟩ := ih (stepEvent st e) h1
    exact ⟨g1, g2.trans h2, g3.trans h3, g4.trans h4⟩

lemma stepEvent_of_nonresolver (st : RunState) (e : ChildEvent) (h : resolves e = false) :
    (stepEvent st e).isResolved = st.isResolved
      ∧ (stepEvent st e).resolved = st.resolved
      ∧ (stepEvent st e).resolveCount = st.resolveCount := by
  cases e <;> simp_all [stepEvent, resolves]

lemma foldl_stepEvent_of_nonresolvers (evs : List ChildEvent) (st : RunState)
    (h : ∀ e ∈ evs, resolves e = false) :
    (evs.foldl stepEvent st).isResolved = st.isResolved
      ∧ (evs.foldl stepEvent st).resolved = st.resolved
      ∧ (evs.foldl stepEvent st).resolveCount = st.resolveCount := by
  induction evs generalizing st with
  | nil => exact ⟨rfl, rfl, rfl⟩
  | cons e evs ih =>
    obtain ⟨h1, h2, h3⟩ := stepEvent_of_nonresolver st e (h e (List.mem_cons_self e evs))
    obtain ⟨g1, g2, g3⟩ := ih (stepEvent st e) (fun x hx => h x (List.mem_cons_of_mem e hx))
    exact ⟨g1.trans h1, g2.trans h2, g3.trans h3⟩

lemma stepEvent_of_resolver (st : RunState) (e : ChildEvent) (h : resolves e = true) :
    (stepEvent st e).isResolved = true := by
  cases e <;> by_cases hr : st.isResolved <;> simp_all [stepEvent, resolves]

lemma stepEvent_count_inv (st : RunState) (e : ChildEvent)
    (h : st.resolveCount = if st.isResolved then 1 else 0) :
    (stepEvent st e).resolveCount = if (stepEvent st e).isResolved then 1 else 0 := by
  cases e <;> by_cases hr : st.isResolved = true <;> simp_all [stepEvent]

lemma runCommand_count_inv (evs : List ChildEvent) :
    (runCommand evs).resolveCount = if (runCommand evs).isResolved then 1 else 0 := by
  unfold runCommand
  have : ∀ (l : List ChildEvent) (st : RunState),
      st.resolveCount = (if st.isResolved then 1 else 0) →
      (l.foldl stepEvent st).resolveCount
        = if (l.foldl stepEvent st).isResolved then 1 else 0 := by
    intro l
    induction l with
    | nil => intro st h; exact h
    | cons e l ih => intro st h; exact ih (stepEvent st e) (stepEvent_count_inv st e h)
  exact this evs initState (by simp [initState])

lemma runCommand_resolved_of_mem (evs : List ChildEvent)
    (h : ∃ e ∈ evs, resolves e = true) : (runCommand evs).isResolved = true := by
  unfold runCommand
  have : ∀ (l : List ChildEvent) (st : RunState),
      (∃ e ∈ l, resolves e = true) → (l.foldl stepEvent st).isResolved = true := by
    intro l
    induction l with
    | nil => intro st h; simp at h
    | cons e l ih =>
      intro st h
      obtain ⟨x, hx, hres⟩ := h
      rcases List.mem_cons.mp hx with rfl | hmem
      · exact (foldl_stepEvent_of_resolved l _ (stepEvent_of_resolver st x hres)).1
      · exact ih (stepEvent st e) ⟨x, hmem, hres⟩
  exact this evs initState h

lemma runCommand_pre_unresolved (pre : List ChildEvent)
    (hpre : ∀ x ∈ pre, resolves x = false) : (runCommand pre).isResolved = false :=
  (foldl_stepEvent_of_nonresolvers pre initState hpre).1

lemma runCommand_first_resolver (pre : List ChildEvent) (e : ChildEvent)
    (post : List ChildEvent) (he : resolves e = true) :
    (runCommand (pre ++ e :: post)).resolved = (stepEvent (runCommand pre) e).resolved
      ∧ (runCommand (pre ++ e :: post)).killed = (stepEvent (runCommand pre) e).killed := by
  unfold runCommand
  rw [List.foldl_append, List.foldl_cons]
  have hres : (stepEvent ((pre.foldl stepEvent initState)) e).isResolved = true :=
    stepEvent_of_resolver _ e he
  obtain ⟨_, h2, _, h4⟩ := foldl_stepEvent_of_resolved post _ hres
  exact ⟨h2, h4⟩

/-! ## Helper lemmas: the test-case loop -/

lemma casePasses_iff (run : Nat → CommandResult) (i : Nat) (tc : TestCase) :
    casePasses run i tc = true
      ↔ ((run i).exitCode = 0 ∧ testPassed (run i).stdout tc.expectedOutput = true) := by
  unfold casePasses
  rw [Bool.and_eq_true, beq_iff_eq]

lemma runTests_cons_pass (run : Nat → CommandResult) (i : Nat) (tc : TestCase)
    (rest : List TestCase) (hz : (run i).exitCode = 0)
    (ht : testPassed (run i).stdout tc.expectedOutput = true) :
    runTests run i (tc :: rest) =
      { allTestsPassed := (runTests run (i + 1) rest).allTestsPassed,
        output := ("Test Case " ++ toString (i + 1) ++ ": Passed\n")
                    ++ (runTests run (i + 1) rest).output,
        error := (runTests run (i + 1) rest).error,
        testCaseResults :=
          { input := tc.input, expectedOutput := tc.expectedOutput,
            actualOutput := (run i).stdout, passed := true }
            :: (runTests run (i + 1) rest).testCaseResults,
        invoked := (runTests run (i + 1) rest).invoked + 1 } := by
  simp [runTests, hz, ht]

lemma runTests_cons_runtimeError (run : Nat → CommandResult) (i : Nat) (tc : TestCase)
    (rest : List TestCase) (hz : (run i).exitCode ≠ 0) :
    runTests run i (tc :: rest) =
      { allTestsPassed := false, output := "",
        error := runtimeErrMsg (i + 1) (run i).stderr,
        testCaseResults :=
          [{ input := tc.input, expectedOutput := tc.expectedOutput,
             actualOutput := "Runtime Error: " ++ (run i).stderr, passed := false }],
        invoked := 1 } := by
  simp [runTests, hz]

lemma runTests_cons_mismatch (run : Nat → CommandResult) (i : Nat) (tc : TestCase)
    (rest : List TestCase) (hz : (run i).exitCode = 0)
    (ht : testPassed (run i).stdout tc.expectedOutput = false) :
    runTests run i (tc :: rest) =
      { allTestsPassed := false, output := "",
        error := mismatchMsg (i + 1) (stripTrailingNewlines tc.expectedOutput)
                   (stripTrailingNewlines (run i).stdout),
        testCaseResults :=
          [{ input := tc.input, expectedOutput := tc.expectedOutput,
             actualOutput := (run i).stdout, passed := false }],
        invoked := 1 } := by
  simp [runTests, hz, ht]

lemma runTests_allPass (run : Nat → CommandResult) :
    ∀ (tcs : List TestCase) (i : Nat),
      (∀ p ∈ tcs.enumFrom i, casePasses run p.1 p.2 = true) →
      (runTests run i tcs).allTestsPassed = true
      ∧ (runTests run i tcs).testCaseResults.length = tcs.length
      ∧ (∀ r ∈ (runTests run i tcs).testCaseResults, r.passed = true) := by
  intro tcs
  induction tcs with
  | nil =>
    intro i _
    refine ⟨rfl, rfl, ?_⟩
    intro r hr
    simp [runTests] at hr
  | cons tc rest ih =>
    intro i h
    have h0 : casePasses run i tc = true :=
      h (i, tc) (by rw [List.enumFrom_cons]; exact List.mem_cons_self _ _)
    rw [casePasses_iff] at h0
    obtain ⟨hz, ht⟩ := h0
    have h' : ∀ p ∈ rest.enumFrom (i + 1), casePasses run p.1 p.2 = true := by
      intro p hp
      exact h p (by rw [List.enumFrom_cons]; exact List.mem_cons_of_mem _ hp)
    obtain ⟨g1, g2, g3⟩ := ih (i + 1) h'
    rw [runTests_cons_pass run i tc rest hz ht]
    refine ⟨g1, by simp [g2], ?_⟩
    intro r hr
    rcases List.mem_cons.mp hr with rfl | hmem
    · rfl
    · exact g3 r hmem

lemma runTests_firstFail (run : Nat → CommandResult) (tc : TestCase)
    (rest : List TestCase) :
    ∀ (pre : List TestCase) (i : Nat),
      (∀ p ∈ pre.enumFrom i, casePasses run p.1 p.2 = true) →
      casePasses run (i + pre.length) tc = false →
      (runTests run i (pre ++ tc :: rest)).allTestsPassed = false
      ∧ (runTests run i (pre ++ tc :: rest)).testCaseResults.length = pre.length + 1
      ∧ (runTests run i (pre ++ tc :: rest)).invoked = pre.length + 1
      ∧ ((run (i + pre.length)).exitCode ≠ 0 →
          (runTests run i (pre ++ tc :: rest)).error
            = runtimeErrMsg (i + pre.length + 1) ((run (i + pre.length)).stderr)) := by
  intro pre
  induction pre with
  | nil =>
    intro i _ hf
    simp only [List.nil_append, List.length_nil, Nat.add_zero] at hf ⊢
    by_cases hz : (run i).exitCode = 0
    · have ht : testPassed (run i).stdout tc.expectedOutput = false := by
        unfold casePasses at hf
        rw [hz] at hf
        simpa using hf
      rw [runTests_cons_mismatch run i tc rest hz ht]
      exact ⟨rfl, rfl, rfl, fun hcon => absurd hz hcon⟩
    · rw [runTests_cons_runtimeError run i tc rest hz]
      exact ⟨rfl, rfl, rfl, fun _ => rfl⟩
  | cons p0 pre ih =>
    intro i hp hf
    have h0 : casePasses run i p0 = true :=
      hp (i, p0) (by rw [List.enumFrom_cons]; exact List.mem_cons_self _ _)
    rw [casePasses_iff] at h0
    obtain ⟨hz, ht⟩ := h0
    have hp' : ∀ p ∈ pre.enumFrom (i + 1), casePasses run p.1 p.2 = true := by
      intro p hpp
      exact hp p (by rw [List.enumFrom_cons]; exact List.mem_cons_of_mem _ hpp)
    have harith : i + (p0 :: pre).length = i + 1 + pre.length := by
      simp [List.length_cons]
      omega
    have hf' : casePasses run (i + 1 + pre.length) tc = false := by
      rw [← harith]
      exact hf
    obtain ⟨g1, g2, g3, g4⟩ := ih (i + 1) hp' hf'
    rw [List.cons_append, runTests_cons_pass run i p0 (pre ++ tc :: rest) hz ht]
    refine ⟨g1, ?_, ?_, ?_⟩
    · simp [g2]
    · simp [g3]
    · intro hcon
      rw [harith] at hcon ⊢
      exact g4 hcon

lemma runTests_error_ne_empty (run : Nat → CommandResult) :
    ∀ (tcs : List TestCase) (i : Nat),
      (runTests run i tcs).allTestsPassed = false → (runTests run i tcs).error ≠ "" := by
  intro tcs
  induction tcs with
  | nil => intro i h; simp [runTests] at h
  | cons tc rest ih =>
    intro i h
    by_cases hz : (run i).exitCode = 0
    · by_cases ht : testPassed (run i).stdout tc.expectedOutput = true
      · rw [runTests_cons_pass run i tc rest hz ht] at h ⊢
        exact ih (i + 1) h
      · rw [Bool.not_eq_true] at ht
        rw [runTests_cons_mismatch run i tc rest hz ht]
        exact mismatchMsg_ne_empty _ _ _
    · rw [runTests_cons_runtimeError run i tc rest hz]
      exact runtimeErrMsg_ne_empty _ _

lemma runTests_cons_exitZero_head (run : Nat → CommandResult) (i : Nat) (tc : TestCase)
    (rest : List TestCase) (hz : (run i).exitCode = 0) :
    (runTests run i (tc :: rest)).testCaseResults.head? =
      some { input := tc.input, expectedOutput := tc.expectedOutput,
             actualOutput := (run i).stdout,
             passed := testPassed (run i).stdout tc.expectedOutput } := by
  by_cases ht : testPassed (run i).stdout tc.expectedOutput = true
  · rw [runTests_cons_pass run i tc rest hz ht, ht]
    rfl
  · rw [Bool.not_eq_true] at ht
    rw [runTests_cons_mismatch run i tc rest hz ht, ht]
    rfl

lemma executeJavaCode_compile_ok (env : JavaEnv) (tcs : List TestCase)
    (hc : env.compile.exitCode = 0) :
    executeJavaCode env tcs =
      { status := if (runTests env.run 0 tcs).allTestsPassed
                  then Status.passed else Status.failed,
        output := some (if (runTests env.run 0 tcs).allTestsPassed
                        then "All " ++ toString tcs.length ++ " test cases passed!"
                        else (runTests env.run 0 tcs).output),
        error := if (runTests env.run 0 tcs).allTestsPassed
                 then none else some (runTests env.run 0 tcs).error,
        executionTime := some env.elapsed,
        testCaseResults := some (runTests env.run 0 tcs).testCaseResults } := by
  simp [executeJavaCode, hc]

/-! ## Claim theorems -/

/-- Claim C5: for every source text whose compilation exits non-zero (a
compile timeout also resolves with a non-zero exit code), the verdict is
`status=error` with `error = "Compilation Error: " ++ stderr` (the compiler
stderr verbatim), and no test case is executed. -/
theorem compileError_verdict (env : JavaEnv) (tcs : List TestCase)
    (h : env.compile.exitCode ≠ 0) :
    executeJavaCode env tcs =
      { status := Status.error, output := none,
        error := some ("Compilation Error: " ++ env.compile.stderr),
        executionTime := none, testCaseResults := none }
    ∧ runnerInvocations env tcs = 0 := by
  constructor
  · simp [executeJavaCode, h]
  · simp [runnerInvocations, h]

theorem compileError_verdict_witness :
    executeJavaCode
        { compile := { stdout := "", stderr := "missing semicolon", exitCode := 2 },
          run := fun _ => { stdout := "", stderr := "", exitCode := 0 }, elapsed := 0 }
        [{ input := "", expectedOutput := "x" }] =
      { status := Status.error, output := none,
        error := some "Compilation Error: missing semicolon",
        executionTime := none, testCaseResults := none }
    ∧ runnerInvocations
        { compile := { stdout := "", stderr := "missing semicolon", exitCode := 2 },
          run := fun _ => { stdout := "", stderr := "", exitCode := 0 }, elapsed := 0 }
        [{ input := "", expectedOutput := "x" }] = 0 :=
  compileError_verdict _ _ (by decide)

/-- Claim C6: when compilation succeeds and every test case exits 0 with
output matching its expected output after trailing-newline stripping
(`casePasses`), the verdict is `status=passed` with
`output = "All <n> test cases passed!"`, `error` absent, and every recorded
test-case result has `passed = true`. -/
theorem allPass_verdict (env : JavaEnv) (tcs : List TestCase)
    (hc : env.compile.exitCode = 0)
    (h : ∀ p ∈ tcs.enumFrom 0, casePasses env.run p.1 p.2 = true) :
    (executeJavaCode env tcs).status = Status.passed
    ∧ (executeJavaCode env tcs).output
        = some ("All " ++ toString tcs.length ++ " test cases passed!")
    ∧ (executeJavaCode env tcs).error = none
    ∧ (executeJavaCode env tcs).testCaseResults
        = some (runTests env.run 0 tcs).testCaseResults
    ∧ (runTests env.run 0 tcs).testCaseResults.length = tcs.length
    ∧ (∀ r ∈ (runTests env.run 0 tcs).testCaseResults, r.passed = true) := by
  obtain ⟨g1, g2, g3⟩ := runTests_allPass env.run tcs 0 h
  rw [executeJavaCode_compile_ok env tcs hc]
  exact ⟨by simp [g1], by simp [g1], by simp [g1], rfl, g2, g3⟩

theorem allPass_verdict_witness :
    (executeJavaCode
        { compile := { stdout := "", stderr := "", exitCode := 0 },
          run := fun i => if i = 0 then { stdout := "ab\n", stderr := "", exitCode := 0 }
                          else { stdout := "cd", stderr := "", exitCode := 0 }, elapsed := 3 }
        [{ input := "", expectedOutput := "ab" }, { input := "", expectedOutput := "cd\n" }]).status
      = Status.passed
    ∧ (executeJavaCode
        { compile := { stdout := "", stderr := "", exitCode := 0 },
          run := fun i => if i = 0 then { stdout := "ab\n", stderr := "", exitCode := 0 }
                          else { stdout := "cd", stderr := "", exitCode := 0 }, elapsed := 3 }
        [{ input := "", expectedOutput := "ab" }, { input := "", expectedOutput := "cd\n" }]).error
      = none := by
  have h := allPass_verdict
    { compile := { stdout := "", stderr := "", exitCode := 0 },
      run := fun i => if i = 0 then { stdout := "ab\n", stderr := "", exitCode := 0 }
                      else { stdout := "cd", stderr := "", exitCode := 0 }, elapsed := 3 }
    [{ input := "", expectedOutput := "ab" }, { input := "", expectedOutput := "cd\n" }]
    (by decide) (by decide)
  exact ⟨h.1, h.2.2.1⟩

/-- Claim C10: for an empty test-case sequence with successful compilation,
the verdict is `status=passed`, `output = "All 0 test cases passed!"`,
`error` absent, `testCaseResults` empty, and the runtime subprocess is never
invoked. -/
theorem emptyTestCases_passed (env : JavaEnv) (hc : env.compile.exitCode = 0) :
    executeJavaCode env [] =
      { status := Status.passed, output := some "All 0 test cases passed!",
        error := none, executionTime := some env.elapsed,
        testCaseResults := some [] }
    ∧ runnerInvocations env [] = 0 := by
  constructor
  · rw [executeJavaCode_compile_ok env [] hc]
    rfl
  · simp [runnerInvocations, hc, runTests]

theorem emptyTestCases_passed_witness :
    executeJavaCode
        { compile := { stdout := "", stderr := "", exitCode := 0 },
          run := fun _ => { stdout := "", stderr := "", exitCode := 0 }, elapsed := 5 } [] =
      { status := Status.passed, output := some "All 0 test cases passed!",
        error := none, executionTime := some 5, testCaseResults := some [] }
    ∧ runnerInvocations
        { compile := { stdout := "", stderr := "", exitCode := 0 },
          run := fun _ => { stdout := "", stderr := "", exitCode := 0 }, elapsed := 5 } [] = 0 :=
  emptyTestCases_passed _ (by decide)

/-- Claim C7: on every exit path of the engine the `error` field is present
iff the status is not `passed`, and a present `error` is never the empty
string; this covers the compile-error path, both loop outcomes, and the
unexpected-exception `catch` path (`executionErrorVerdict`). -/
theorem error_present_iff_not_passed (env : JavaEnv) (tcs : List TestCase) (m : String) :
    ((executeJavaCode env tcs).error = none ↔ (executeJavaCode env tcs).status = Status.passed)
    ∧ (executeJavaCode env tcs).error ≠ some ""
    ∧ (executionErrorVerdict m).status ≠ Status.passed
    ∧ (executionErrorVerdict m).error ≠ none
    ∧ (executionErrorVerdict m).error ≠ some "" := by
  refine ⟨?_, ?_, by simp [executionErrorVerdict], by simp [executionErrorVerdict], ?_⟩
  · by_cases hc : env.compile.exitCode = 0
    · rw [executeJavaCode_compile_ok env tcs hc]
      by_cases hall : (runTests env.run 0 tcs).allTestsPassed <;> simp [hall]
    · have h := (compileError_verdict env tcs hc).1
      rw [h]
      simp
  · by_cases hc : env.compile.exitCode = 0
    · rw [executeJavaCode_compile_ok env tcs hc]
      by_cases hall : (runTests env.run 0 tcs).allTestsPassed
      · simp [hall]
      · have hall' : (runTests env.run 0 tcs).allTestsPassed = false := by
          rw [Bool.not_eq_true] at hall
          exact hall
        have hne := runTests_error_ne_empty env.run tcs 0 hall'
        simp [hall']
        exact hne
    · have h := (compileError_verdict env tcs hc).1
      rw [h]
      simp only [ne_eq, Option.some.injEq]
      exact append_ne_empty_left _ _ (by decide)
  · unfold executionErrorVerdict
    simp only [ne_eq, Option.some.injEq]
    exact append_ne_empty_left _ _ (by decide)

/-- Environment in which compilation succeeds and the program exits 1 with
stderr `"boom"` on the first test case. -/
def runtimeErrEnv : JavaEnv :=
  { compile := { stdout := "", stderr := "", exitCode := 0 },
    run := fun _ => { stdout := "", stderr := "boom", exitCode := 1 }, elapsed := 0 }

/-- Claim C1 counterexample: a grading run whose compiled program exits
non-zero during test case 1 yields `status=failed`, not `status=error`,
even though the `error` text is the claimed
`Runtime Error in Test Case 1: <stderr>`. -/
theorem runtimeError_status_cex :
    (runtimeErrEnv.run 0).exitCode ≠ 0
    ∧ runtimeErrEnv.compile.exitCode = 0
    ∧ (executeJavaCode runtimeErrEnv [{ input := "", expectedOutput := "out" }]).error
        = some "Runtime Error in Test Case 1: boom"
    ∧ ¬ (executeJavaCode runtimeErrEnv [{ input := "", expectedOutput := "out" }]).status
        = Status.error
    ∧ (executeJavaCode runtimeErrEnv [{ input := "", expectedOutput := "out" }]).status
        = Status.failed := by
  decide

/-- Claim C1 (amended): when the compiled program exits non-zero (or times
out, which resolves with exit code 1) during the first failing test case,
the verdict has `status=failed` (not `error` as the spec states), with the
`error` text naming the failing 1-based test index and the process stderr:
`Runtime Error in Test Case <k>: <stderr>`. -/
theorem runtimeError_failed_verdict (env : JavaEnv) (pre rest : List TestCase)
    (tc : TestCase) (hc : env.compile.exitCode = 0)
    (hpass : ∀ p ∈ pre.enumFrom 0, casePasses env.run p.1 p.2 = true)
    (hfail : (env.run pre.length).exitCode ≠ 0) :
    (executeJavaCode env (pre ++ tc :: rest)).status = Status.failed
    ∧ (executeJavaCode env (pre ++ tc :: rest)).error
        = some ("Runtime Error in Test Case " ++ toString (pre.length + 1)
                  ++ ": " ++ (env.run pre.length).stderr) := by
  have hf : casePasses env.run (0 + pre.length) tc = false := by
    unfold casePasses
    rw [Nat.zero_add, beq_eq_false_iff_ne.mpr hfail, Bool.false_and]
  obtain ⟨g1, g2, g3, g4⟩ := runTests_firstFail env.run tc rest pre 0 hpass hf
  have gerr := g4 (by rw [Nat.zero_add]; exact hfail)
  rw [Nat.zero_add] at gerr
  rw [executeJavaCode_compile_ok env _ hc]
  constructor
  · simp [g1]
  · simp [g1, gerr, runtimeErrMsg]

theorem runtimeError_failed_verdict_witness :
    (executeJavaCode
        { compile := { stdout := "", stderr := "", exitCode := 0 },
          run := fun i => if i = 0 then { stdout := "a", stderr := "", exitCode := 0 }
                          else { stdout := "", stderr := "oops", exitCode := 1 }, elapsed := 0 }
        ([{ input := "", expectedOutput := "a" }]
          ++ { input := "", expectedOutput := "b" } :: [])).status = Status.failed
    ∧ (executeJavaCode
        { compile := { stdout := "", stderr := "", exitCode := 0 },
          run := fun i => if i = 0 then { stdout := "a", stderr := "", exitCode := 0 }
                          else { stdout := "", stderr := "oops", exitCode := 1 }, elapsed := 0 }
        ([{ input := "", expectedOutput := "a" }]
          ++ { input := "", expectedOutput := "b" } :: [])).error
        = some ("Runtime Error in Test Case "
                  ++ toString ([({ input := "", expectedOutput := "a" } : TestCase)].length + 1)
                  ++ ": " ++ "oops") :=
  runtimeError_failed_verdict _ _ _ _ (by decide) (by decide) (by decide)

/-- Claim C2: for a test case whose process exits 0, the recorded result's
`actualOutput` is the raw stdout and its `passed` flag is exactly
`testPassed`, which compares the two texts after stripping only trailing
newline characters: texts differing only in trailing newlines compare
equal, while inserting any non-newline character (leading or internal
whitespace included) anywhere makes the comparison fail. -/
theorem comparison_trailing_newline_policy (run : Nat → CommandResult) (i : Nat)
    (tc : TestCase) (rest : List TestCase) (u p q : List Char) (c : Char)
    (m n : Nat) (hz : (run i).exitCode = 0) (hc : ¬ c = '\n') :
    (runTests run i (tc :: rest)).testCaseResults.head? =
      some { input := tc.input, expectedOutput := tc.expectedOutput,
             actualOutput := (run i).stdout,
             passed := testPassed (run i).stdout tc.expectedOutput }
    ∧ testPassed (String.mk (u ++ List.replicate m '\n'))
        (String.mk (u ++ List.replicate n '\n')) = true
    ∧ testPassed (String.mk (p ++ c :: q)) (String.mk (p ++ q)) = false :=
  ⟨runTests_cons_exitZero_head run i tc rest hz,
   testPassed_trailing_newlines u m n,
   testPassed_insert_false p q c hc⟩

theorem comparison_trailing_newline_policy_witness :
    (runTests (fun _ => { stdout := "x\n\n", stderr := "", exitCode := 0 }) 0
        [{ input := "", expectedOutput := "x" }]).testCaseResults.head? =
      some { input := "", expectedOutput := "x", actualOutput := "x\n\n",
             passed := testPassed "x\n\n" "x" }
    ∧ testPassed (String.mk (['x'] ++ List.replicate 2 '\n'))
        (String.mk (['x'] ++ List.replicate 0 '\n')) = true
    ∧ testPassed (String.mk ([] ++ ' ' :: ['x'])) (String.mk ([] ++ ['x'])) = false :=
  comparison_trailing_newline_policy
    (fun _ => { stdout := "x\n\n", stderr := "", exitCode := 0 }) 0
    { input := "", expectedOutput := "x" } [] ['x'] [] ['x'] ' ' 2 0
    (by decide) (by decide)

/-- Claim C3: test cases are evaluated in input order and evaluation stops
at the first failing or erroring case: if the cases before `tc` all pass
and `tc` (1-based index `pre.length + 1`) fails or errors, the verdict's
`testCaseResults` has exactly `pre.length + 1` entries and the runtime
subprocess is invoked exactly `pre.length + 1` times, so no later case is
executed. -/
theorem shortCircuit_first_failure (env : JavaEnv) (pre rest : List TestCase)
    (tc : TestCase) (hc : env.compile.exitCode = 0)
    (hpass : ∀ p ∈ pre.enumFrom 0, casePasses env.run p.1 p.2 = true)
    (hfail : casePasses env.run pre.length tc = false) :
    Option.map List.length (executeJavaCode env (pre ++ tc :: rest)).testCaseResults
        = some (pre.length + 1)
    ∧ runnerInvocations env (pre ++ tc :: rest) = pre.length + 1
    ∧ (executeJavaCode env (pre ++ tc :: rest)).status = Status.failed := by
  have hf : casePasses env.run (0 + pre.length) tc = false := by
    rw [Nat.zero_add]
    exact hfail
  obtain ⟨g1, g2, g3, _⟩ := runTests_firstFail env.run tc rest pre 0 hpass hf
  rw [executeJavaCode_compile_ok env _ hc]
  refine ⟨by simp [g2], ?_, by simp [g1]⟩
  simp [runnerInvocations, hc, g3]

theorem shortCircuit_first_failure_witness :
    Option.map List.length
      (executeJavaCode
        { compile := { stdout := "", stderr := "", exitCode := 0 },
          run := fun i => if i = 0 then { stdout := "ok", stderr := "", exitCode := 0 }
                          else { stdout := "bad", stderr := "", exitCode := 0 }, elapsed := 0 }
        ([{ input := "", expectedOutput := "ok" }]
          ++ { input := "", expectedOutput := "good" }
            :: [{ input := "", expectedOutput := "never" }])).testCaseResults
      = some ([({ input := "", expectedOutput := "ok" } : TestCase)].length + 1)
    ∧ runnerInvocations
        { compile := { stdout := "", stderr := "", exitCode := 0 },
          run := fun i => if i = 0 then { stdout := "ok", stderr := "", exitCode := 0 }
                          else { stdout := "bad", stderr := "", exitCode := 0 }, elapsed := 0 }
        ([{ input := "", expectedOutput := "ok" }]
          ++ { input := "", expectedOutput := "good" }
            :: [{ input := "", expectedOutput := "never" }])
      = [({ input := "", expectedOutput := "ok" } : TestCase)].length + 1
    ∧ (executeJavaCode
        { compile := { stdout := "", stderr := "", exitCode := 0 },
          run := fun i => if i = 0 then { stdout := "ok", stderr := "", exitCode := 0 }
                          else { stdout := "bad", stderr := "", exitCode := 0 }, elapsed := 0 }
        ([{ input := "", expectedOutput := "ok" }]
          ++ { input := "", expectedOutput := "good" }
            :: [{ input := "", expectedOutput := "never" }])).status = Status.failed :=
  shortCircuit_first_failure _ _ _ _ (by decide) (by decide) (by decide)

/-- Claim C4: every `runCommand` invocation resolves at most once (and
exactly once as soon as a close, spawn-error, or timer event occurs); when
the process closes with exit code `c` before the timer fires the promise
resolves with the real exit code and the stdout/stderr captured so far, and
when the timer fires first the process is killed and the promise resolves
with `timeoutResult`, whose `exitCode` is the non-zero sentinel 1 and whose
`stderr` is `Timeout: Code execution took too long`; a single resolved
value excludes ever yielding both outcomes. -/
theorem runCommand_single_resolution (evs : List ChildEvent) :
    (runCommand evs).resolveCount ≤ 1
    ∧ ((∃ e ∈ evs, resolves e = true) → (runCommand evs).resolveCount = 1)
    ∧ (∀ (pre post : List ChildEvent) (c : Int),
        (∀ x ∈ pre, resolves x = false) →
        evs = pre ++ ChildEvent.closed (some c) :: post →
        (runCommand evs).resolved
          = some { stdout := (runCommand pre).stdout,
                   stderr := (runCommand pre).stderr, exitCode := c })
    ∧ (∀ (pre post : List ChildEvent),
        (∀ x ∈ pre, resolves x = false) →
        evs = pre ++ ChildEvent.timerFired :: post →
        (runCommand evs).resolved = some timeoutResult
          ∧ (runCommand evs).killed = true)
    ∧ timeoutResult.exitCode ≠ 0
    ∧ timeoutResult.stderr = "Timeout: Code execution took too long" := by
  refine ⟨?_, ?_, ?_, ?_, by decide, rfl⟩
  · rw [runCommand_count_inv evs]
    split <;> omega
  · intro h
    rw [runCommand_count_inv evs, runCommand_resolved_of_mem evs h]
    rfl
  · intro pre post c hpre hevs
    subst hevs
    rw [(runCommand_first_resolver pre (ChildEvent.closed (some c)) post rfl).1]
    have hunres := runCommand_pre_unresolved pre hpre
    simp [stepEvent, hunres]
  · intro pre post hpre hevs
    subst hevs
    have hunres := runCommand_pre_unresolved pre hpre
    constructor
    · rw [(runCommand_first_resolver pre ChildEvent.timerFired post rfl).1]
      simp [stepEvent, hunres]
    · rw [(runCommand_first_resolver pre ChildEvent.timerFired post rfl).2]
      simp [stepEvent, hunres]

theorem runCommand_single_resolution_witness :
    (runCommand [ChildEvent.outData "a", ChildEvent.errData "w",
        ChildEvent.closed (some 2), ChildEvent.timerFired]).resolveCount = 1
    ∧ (runCommand [ChildEvent.outData "a", ChildEvent.errData "w",
        ChildEvent.closed (some 2), ChildEvent.timerFired]).resolved
        = some { stdout := (runCommand [ChildEvent.outData "a", ChildEvent.errData "w"]).stdout,
                 stderr := (runCommand [ChildEvent.outData "a", ChildEvent.errData "w"]).stderr,
                 exitCode := 2 } := by
  have h := runCommand_single_resolution
    [ChildEvent.outData "a", ChildEvent.errData "w",
     ChildEvent.closed (some 2), ChildEvent.timerFired]
  refine ⟨h.2.1 ?_, ?_⟩
  · exact ⟨ChildEvent.closed (some 2), by decide, rfl⟩
  · exact h.2.2.1 [ChildEvent.outData "a", ChildEvent.errData "w"]
      [ChildEvent.timerFired] 2 (by decide) rfl

/-- Claim C9: a child process that closes with a `null` exit code before
the timer fires is reported with `exitCode 0` (the `code || 0` fallback),
and a test case whose run reports exit code 0 proceeds to the output
comparison: its recorded result carries the collected stdout as
`actualOutput` and the `testPassed` comparison outcome, not a runtime
error. -/
theorem closed_null_code_success (pre post : List ChildEvent)
    (run : Nat → CommandResult) (i : Nat) (tc : TestCase) (rest : List TestCase)
    (hpre : ∀ x ∈ pre, resolves x = false) (hz : (run i).exitCode = 0) :
    (runCommand (pre ++ ChildEvent.closed none :: post)).resolved
        = some { stdout := (runCommand pre).stdout,
                 stderr := (runCommand pre).stderr, exitCode := 0 }
    ∧ (runTests run i (tc :: rest)).testCaseResults.head? =
        some { input := tc.input, expectedOutput := tc.expectedOutput,
               actualOutput := (run i).stdout,
               passed := testPassed (run i).stdout tc.expectedOutput } := by
  constructor
  · rw [(runCommand_first_resolver pre (ChildEvent.closed none) post rfl).1]
    have hunres := runCommand_pre_unresolved pre hpre
    simp [stepEvent, hunres]
  · exact runTests_cons_exitZero_head run i tc rest hz

theorem closed_null_code_success_witness :
    (runCommand ([ChildEvent.outData "hi"] ++ ChildEvent.closed none :: [])).resolved
        = some { stdout := (runCommand [ChildEvent.outData "hi"]).stdout,
                 stderr := (runCommand [ChildEvent.outData "hi"]).stderr, exitCode := 0 }
    ∧ (runTests (fun _ => { stdout := "hi", stderr := "", exitCode := 0 }) 0
        ({ input := "", expectedOutput := "hi" } :: [])).testCaseResults.head? =
        some { input := "", expectedOutput := "hi", actualOutput := "hi",
               passed := testPassed "hi" "hi" } :=
  closed_null_code_success [ChildEvent.outData "hi"] []
    (fun _ => { stdout := "hi", stderr := "", exitCode := 0 }) 0
    { input := "", expectedOutput := "hi" } [] (by decide) (by decide)

/-- Claim C8: the `finally` cleanup unlinks the run's token-named source
file `Solution_<suffix>.java` and class file `Solution_<suffix>.class` as
the last operations of every exit path — after any operation prefix at all
(covering the exception path), and in particular after the full trace
`gradeFsTrace` of a grading run — so no file attributable to the run's
token remains. -/
theorem cleanup_removes_token_files (suffix : String) (fs0 : List String)
    (env : JavaEnv) (tcs : List TestCase) (ops : List FsOp) :
    (javaFileName suffix ∉ applyOps fs0 (ops ++ cleanupOps suffix)
     ∧ classFileName suffix ∉ applyOps fs0 (ops ++ cleanupOps suffix))
    ∧ (javaFileName suffix ∉ applyOps fs0 (gradeFsTrace env tcs suffix)
       ∧ classFileName suffix ∉ applyOps fs0 (gradeFsTrace env tcs suffix)) := by
  have happ : ∀ (l : List FsOp), applyOps fs0 (l ++ cleanupOps suffix)
      = applyOps (applyOps fs0 l) (cleanupOps suffix) := by
    intro l
    unfold applyOps
    rw [List.foldl_append]
  have key : ∀ (l : List String),
      javaFileName suffix ∉ applyOps l (cleanupOps suffix)
      ∧ classFileName suffix ∉ applyOps l (cleanupOps suffix) := by
    intro l
    constructor
    · intro hmem
      simp only [applyOps, cleanupOps, List.foldl_cons, List.foldl_nil, applyOp,
        List.mem_filter, decide_eq_true_eq] at hmem
      exact hmem.1.2 rfl
    · intro hmem
      simp only [applyOps, cleanupOps, List.foldl_cons, List.foldl_nil, applyOp,
        List.mem_filter, decide_eq_true_eq] at hmem
      exact hmem.2 rfl
  refine ⟨?_, ?_⟩
  · rw [happ ops]
    exact key _
  · unfold gradeFsTrace
    rw [happ _]
    exact key _

end JavaExecutor
